import Mathlib

/-!
Verification development for the NfoGenerator repository
(StashApp JSON → NFO/XML converter).

The Python sources are shallowly embedded:
* JSON-compatible Python values become the inductive `PyVal`
  (integers and floats are collapsed into `ℚ`; arithmetic performed by the
  program on ratings/durations — multiplication by 2, division by 60,
  `int()` truncation — is exact, so the rational model is faithful).
* Python dicts become association lists with first-match lookup; the
  converter only ever builds dicts with pairwise-distinct keys, matching
  Python dict semantics.
* `datetime.strptime` for the layouts used by `converters.py` is embedded
  following CPython's `_strptime` regexes (`%Y` is exactly four digits,
  `%m`/`%d` follow the alternations `1[0-2]|0[1-9]|[1-9]` and
  `3[01]|[12]\d|0[1-9]|[1-9]`, in that backtracking order), followed by
  `datetime`'s calendar-validity check and the
  "unconverted data remains" full-consumption check.
* `strftime` zero-pads the year to four digits, month and day to two.
* Uncaught Python exceptions are modelled by `Option`: a `none` result of
  a conversion marks an input on which the Python code raises.
-/

set_option maxHeartbeats 1000000

namespace NfoGen

/-- Python/JSON values as consumed by the converter.  Numbers (`int` and
`float`) are collapsed into `ℚ`. -/
inductive PyVal where
  | none : PyVal
  | bool : Bool → PyVal
  | num : ℚ → PyVal
  | str : String → PyVal
  | list : List PyVal → PyVal
  | dict : List (String × PyVal) → PyVal

/-- A Python dict: an association list (keys pairwise distinct in every
dict the program builds, matching Python dict semantics). -/
abbrev Dict := List (String × PyVal)

/-- First-match key lookup, `d[k]`-style (`none` when the key is absent). -/
def dictGet? : Dict → String → Option PyVal
  | [], _ => Option.none
  | (k', v) :: rest, k => if k' = k then some v else dictGet? rest k

/-- `d.get(k, default)`. -/
def dictGetD (d : Dict) (k : String) (v : PyVal) : PyVal :=
  (dictGet? d k).getD v

/-- `d.get(k)`: absent keys give Python `None`. -/
def pyGet (d : Dict) (k : String) : PyVal :=
  dictGetD d k .none

/-- `k in d`. -/
def hasKey (d : Dict) (k : String) : Bool :=
  (dictGet? d k).isSome

/-- `d[k] = v`: replace the value of an existing key in place, otherwise
append the pair (Python dict assignment keeps insertion order). -/
def dictSet : Dict → String → PyVal → Dict
  | [], k, v => [(k, v)]
  | (k', v') :: rest, k, v =>
      if k' = k then (k, v) :: rest else (k', v') :: dictSet rest k v

/-- Python truthiness of a value. -/
def pyTruthy : PyVal → Bool
  | .none => false
  | .bool b => b
  | .num q => decide (q ≠ 0)
  | .str s => decide (s ≠ "")
  | .list l => !l.isEmpty
  | .dict d => !d.isEmpty

/-- `v is None`. -/
def isNone : PyVal → Bool
  | .none => true
  | _ => false

/-- `isinstance(v, dict)`. -/
def isDictVal : PyVal → Bool
  | .dict _ => true
  | _ => false

/-- Truncation toward zero, Python `int()` applied to a float. -/
def pyIntTrunc (q : ℚ) : ℤ :=
  q.num.tdiv (q.den : ℤ)

/-- Decimal digit character. -/
def digitChar (n : Nat) : Char := Char.ofNat (48 + n)

/-- ASCII digit test. -/
def isDigitC (c : Char) : Bool := decide ('0' ≤ c) && decide (c ≤ '9')

/-- Value of a digit character. -/
def digitVal (c : Char) : Nat := c.toNat - 48

/-- Value of a digit string (most significant first). -/
def digitsToNat (cs : List Char) : Nat :=
  cs.foldl (fun a c => a * 10 + digitVal c) 0

/-- Unsigned decimal literal accepted by Python `float()`:
`digits`, `digits.digits`, `digits.` or `.digits` (exponents, `inf` and
`nan` are not modelled; no theorem below depends on them). -/
def parseUnsigned (cs : List Char) : Option ℚ :=
  let intPart := cs.takeWhile isDigitC
  let rest := cs.dropWhile isDigitC
  match rest with
  | [] => if intPart = [] then Option.none else some (digitsToNat intPart : ℚ)
  | '.' :: frac =>
      if frac.all isDigitC && (intPart ≠ [] || frac ≠ []) then
        some ((digitsToNat intPart : ℚ) + (digitsToNat frac : ℚ) / (10 ^ frac.length : ℚ))
      else Option.none
  | _ => Option.none

/-- `float(s)` for a string: strips surrounding spaces, then an optional
sign and an unsigned decimal literal. -/
def pyFloatOfString (s : String) : Option ℚ :=
  let cs := ((s.data.dropWhile (· = ' ')).reverse.dropWhile (· = ' ')).reverse
  match cs with
  | '+' :: cs' => parseUnsigned cs'
  | '-' :: cs' => (parseUnsigned cs').map (fun q => -q)
  | _ => parseUnsigned cs

/-- `float(v)`: `none` models a `ValueError`/`TypeError`. -/
def pyFloat : PyVal → Option ℚ
  | .num q => some q
  | .bool b => some (if b then 1 else 0)
  | .str s => pyFloatOfString s
  | _ => Option.none

/-- `str(v)` for the values the rendering theorems evaluate: strings, ints
(rationals with denominator 1), bools and `None`.  The textual form of
non-integral floats and of containers is not inspected by any theorem in
this file and is modelled by placeholders. -/
def pyStr : PyVal → String
  | .str s => s
  | .num q => if q.den = 1 then toString q.num else toString q
  | .bool b => if b then "True" else "False"
  | .none => "None"
  | .list _ => "<list>"
  | .dict _ => "<dict>"

/-! ### Date parsing (`datetime.strptime` for the layouts of `_convert_date`) -/

/-- Exactly four digits (CPython's `%Y` regex is `\d\d\d\d`). -/
def parse4Digits : List Char → Option (Nat × List Char)
  | a :: b :: c :: d :: rest =>
      if isDigitC a && isDigitC b && isDigitC c && isDigitC d then
        some (((digitVal a * 10 + digitVal b) * 10 + digitVal c) * 10 + digitVal d, rest)
      else Option.none
  | _ => Option.none

/-- Match candidates of CPython's `%m` regex `1[0-2]|0[1-9]|[1-9]`, in
alternation (backtracking-preference) order. -/
def monthCands : List Char → List (Nat × List Char)
  | [] => []
  | [c] => if isDigitC c && c ≠ '0' then [(digitVal c, [])] else []
  | c₁ :: c₂ :: rest =>
      (if c₁ = '1' && (c₂ = '0' || c₂ = '1' || c₂ = '2') then
        [(10 + digitVal c₂, rest)] else []) ++
      (if c₁ = '0' && isDigitC c₂ && c₂ ≠ '0' then [(digitVal c₂, rest)] else []) ++
      (if isDigitC c₁ && c₁ ≠ '0' then [(digitVal c₁, c₂ :: rest)] else [])

/-- Match candidates of CPython's `%d` regex `3[01]|[12]\d|0[1-9]|[1-9]`,
in alternation order. -/
def dayCands : List Char → List (Nat × List Char)
  | [] => []
  | [c] => if isDigitC c && c ≠ '0' then [(digitVal c, [])] else []
  | c₁ :: c₂ :: rest =>
      (if c₁ = '3' && (c₂ = '0' || c₂ = '1') then [(30 + digitVal c₂, rest)] else []) ++
      (if (c₁ = '1' || c₁ = '2') && isDigitC c₂ then
        [(10 * digitVal c₁ + digitVal c₂, rest)] else []) ++
      (if c₁ = '0' && isDigitC c₂ && c₂ ≠ '0' then [(digitVal c₂, rest)] else []) ++
      (if isDigitC c₁ && c₁ ≠ '0' then [(digitVal c₁, c₂ :: rest)] else [])

/-- Expect one literal character. -/
def expectChar (c : Char) : List Char → Option (List Char)
  | x :: rest => if x = c then some rest else Option.none
  | [] => Option.none

/-- Regex match of `%Y sep %m sep %d` (leftmost match with alternation
backtracking; the unconsumed tail is returned, full consumption is checked
by the caller as CPython does). -/
def regexYMD (sep : Char) (cs : List Char) : Option ((Nat × Nat × Nat) × List Char) :=
  match parse4Digits cs with
  | Option.none => Option.none
  | some (y, r₁) =>
      match expectChar sep r₁ with
      | Option.none => Option.none
      | some r₂ =>
          (monthCands r₂).findSome? (fun mc =>
            match expectChar sep mc.2 with
            | Option.none => Option.none
            | some r₃ =>
                (dayCands r₃).findSome? (fun dc => some ((y, mc.1, dc.1), dc.2)))

/-- Regex match of `%d sep %m sep %Y`. -/
def regexDMY (sep : Char) (cs : List Char) : Option ((Nat × Nat × Nat) × List Char) :=
  (dayCands cs).findSome? (fun dc =>
    match expectChar sep dc.2 with
    | Option.none => Option.none
    | some r₂ =>
        (monthCands r₂).findSome? (fun mc =>
          match expectChar sep mc.2 with
          | Option.none => Option.none
          | some r₃ =>
              match parse4Digits r₃ with
              | Option.none => Option.none
              | some (y, rest) => some ((y, mc.1, dc.1), rest)))

/-- Regex match of `%m sep %d sep %Y`. -/
def regexMDY (sep : Char) (cs : List Char) : Option ((Nat × Nat × Nat) × List Char) :=
  (monthCands cs).findSome? (fun mc =>
    match expectChar sep mc.2 with
    | Option.none => Option.none
    | some r₂ =>
        (dayCands r₂).findSome? (fun dc =>
          match expectChar sep dc.2 with
          | Option.none => Option.none
          | some r₃ =>
              match parse4Digits r₃ with
              | Option.none => Option.none
              | some (y, rest) => some ((y, mc.1, dc.1), rest)))

/-- Gregorian leap year (as `calendar.isleap`, used by `datetime`). -/
def isLeapYear (y : Nat) : Bool :=
  y % 4 = 0 && (y % 100 ≠ 0 || y % 400 = 0)

/-- Days in a month. -/
def daysInMonth (y m : Nat) : Nat :=
  if m = 2 then (if isLeapYear y then 29 else 28)
  else if m = 4 || m = 6 || m = 9 || m = 11 then 30
  else 31

/-- The validity check performed by the `datetime` constructor
(`MINYEAR = 1`; a four-digit year is automatically `≤ 9999 = MAXYEAR`). -/
def validDate (y m d : Nat) : Bool :=
  1 ≤ y && 1 ≤ m && m ≤ 12 && 1 ≤ d && d ≤ daysInMonth y m

/-- The five distinct date-only layouts of `_convert_date` (the three
`T`-bearing format strings collapse to `%Y-%m-%d` after the code's
`fmt.split('T')[0]`). -/
inductive DateFmt where
  | ymd      -- '%Y-%m-%d'
  | dmySlash -- '%d/%m/%Y'
  | mdySlash -- '%m/%d/%Y'
  | dmyDash  -- '%d-%m-%Y'
  | mdyDash  -- '%m-%d-%Y'
deriving DecidableEq

/-- Run the regex of one layout. -/
def runFormat : DateFmt → List Char → Option ((Nat × Nat × Nat) × List Char)
  | .ymd => regexYMD '-'
  | .dmySlash => regexDMY '/'
  | .mdySlash => regexMDY '/'
  | .dmyDash => regexDMY '-'
  | .mdyDash => regexMDY '-'

/-- `datetime.strptime(cs, fmt)` for one date-only layout: regex match,
"unconverted data remains" check, then calendar validity (`none` models a
raised `ValueError`). -/
def strptimeDate (f : DateFmt) (cs : List Char) : Option (Nat × Nat × Nat) :=
  match runFormat f cs with
  | some ((y, m, d), []) => if validDate y m d then some (y, m, d) else Option.none
  | _ => Option.none

/-- The format list of `_convert_date`, in source order, after
`fmt.split('T')[0]`. -/
def dateFormats : List DateFmt :=
  [.ymd, .ymd, .ymd, .dmySlash, .mdySlash, .dmyDash, .mdyDash]

/-- `date_str.split('T')[0]`. -/
def takeUntilT (cs : List Char) : List Char := cs.takeWhile (· ≠ 'T')

/-- Two-digit zero-padded rendering (strftime `%m`, `%d`). -/
def pad2 (n : Nat) : List Char := [digitChar (n / 10), digitChar (n % 10)]

/-- Four-digit zero-padded rendering (strftime `%Y`). -/
def pad4 (n : Nat) : List Char :=
  [digitChar (n / 1000), digitChar (n / 100 % 10), digitChar (n / 10 % 10), digitChar (n % 10)]

/-- `dt.strftime('%Y-%m-%d')`. -/
def formatYMD (y m d : Nat) : String :=
  ⟨pad4 y ++ '-' :: (pad2 m ++ '-' :: pad2 d)⟩

/-- `StashToNfoConverter._convert_date` (the DateNormalizer): empty input
gives `''`; otherwise the part of the input before the first `'T'` is
tried against the ordered layouts, the first success is re-rendered as
`YYYY-MM-DD`, and if every layout fails the original string is returned
unchanged. -/
def convert_date (s : String) : String :=
  if s = "" then ""
  else
    match dateFormats.findSome? (fun f => strptimeDate f (takeUntilT s.data)) with
    | some (y, m, d) => formatYMD y m d
    | Option.none => s

/-- The strict year parse of `_convert_scene`/`_convert_gallery`:
`datetime.strptime(date_str, '%Y-%m-%d')` applied to the full, original
string. -/
def strictYMD (s : String) : Option (Nat × Nat × Nat) :=
  strptimeDate .ymd s.data

/-! ### `StashToNfoConverter` field mapping (`converters.py`) -/

/-- One converted actor entry (`{'order': i, 'name': …, 'role': …}`).
`name` and `role` are kept as raw Python values, as the source stores
whatever `performer.get(…)` returned. -/
structure Actor where
  name : PyVal
  role : PyVal
  order : Nat

/-- Recursion of `_convert_performers_to_actors` with the `enumerate`
index made explicit. -/
def actorsGo : List PyVal → Nat → List Actor
  | [], _ => []
  | p :: rest, i =>
      match p with
      | .str s => ⟨.str s, .str "", i⟩ :: actorsGo rest (i + 1)
      | .dict d => ⟨dictGetD d "name" (.str ""), dictGetD d "role" (.str ""), i⟩ ::
          actorsGo rest (i + 1)
      | _ => actorsGo rest (i + 1)

/-- `StashToNfoConverter._convert_performers_to_actors`. -/
def convert_performers_to_actors (performers : List PyVal) : List Actor :=
  actorsGo performers 0

/-- An `Actor` as the Python dict the source builds (`order` is assigned
first, then `name`/`role`). -/
def actorToPyVal (a : Actor) : PyVal :=
  .dict [("order", .num a.order), ("name", a.name), ("role", a.role)]

/-- The rating block of `_convert_scene`: `float(rating) * 2` when the
value is not `None` and converts, else `0`. -/
def rating_value (rating : PyVal) : PyVal :=
  if isNone rating then .num 0
  else
    match pyFloat rating with
    | some r => .num (r * 2)
    | Option.none => .num 0

/-- The date block shared by `_convert_scene` and `_convert_gallery`:
when `date` is truthy, set `premiered` to the normalized date and `year`
only if the strict `%Y-%m-%d` parse of the original string succeeds.
A truthy non-string `date` makes `_convert_date` raise `AttributeError`
(`none`). -/
def dateStep (dateVal : PyVal) (n : Dict) : Option Dict :=
  if pyTruthy dateVal then
    match dateVal with
    | .str s =>
        let n' := dictSet n "premiered" (.str (convert_date s))
        match strictYMD s with
        | some (y, _, _) => some (dictSet n' "year" (.num (y : ℚ)))
        | Option.none => some n'
    | _ => Option.none
  else some n

/-- `nfo_data['studio'] = scene_data.get('studio', '')`. -/
def studioStep (sd : Dict) (n : Dict) : Dict :=
  dictSet n "studio" (dictGetD sd "studio" (.str ""))

/-- The uniqueid block: set only when `url` is truthy. -/
def uniqueidStep (sd : Dict) (n : Dict) : Dict :=
  if pyTruthy (pyGet sd "url") then
    dictSet n "uniqueid"
      (.dict [("type", .str "stash"), ("value", pyGet sd "url"), ("default", .bool true)])
  else n

/-- The genres block: `tags = sd.get('tags', [])`, stored only when it is
a list (the absent-key default `[]` is a list and is stored). -/
def genresStep (sd : Dict) (n : Dict) : Dict :=
  match dictGetD sd "tags" (.list []) with
  | .list tags => dictSet n "genres" (.list tags)
  | _ => n

/-- The actors block: `performers = sd.get('performers', [])`, converted
and stored only when it is a list. -/
def actorsStep (sd : Dict) (n : Dict) : Dict :=
  match dictGetD sd "performers" (.list []) with
  | .list ps =>
      dictSet n "actors" (.list ((convert_performers_to_actors ps).map actorToPyVal))
  | _ => n

/-- The runtime block: `file_info = sd.get('file', {})`; only when it is a
dict and its `duration` is truthy and converts to a number, store
`int(float(duration) / 60)`. -/
def runtimeStep (sd : Dict) (n : Dict) : Dict :=
  match dictGetD sd "file" (.dict []) with
  | .dict f =>
      if pyTruthy (pyGet f "duration") then
        match pyFloat (pyGet f "duration") with
        | some q => dictSet n "runtime" (.num ((pyIntTrunc (q / 60) : ℤ) : ℚ))
        | Option.none => n
      else n
  | _ => n

/-- The first four assignments of `_convert_scene`. -/
def sceneBase (sd : Dict) : Dict :=
  dictSet
    (dictSet
      (dictSet
        (dictSet [] "title" (dictGetD sd "title" (.str "")))
        "originaltitle" (dictGetD sd "title" (.str "")))
      "plot" (dictGetD sd "details" (.str "")))
    "userrating" (rating_value (pyGet sd "rating"))

/-- `StashToNfoConverter._convert_scene`.  `none` models an uncaught
exception (truthy non-string `date`). -/
def convert_scene (sd : Dict) : Option Dict :=
  (dateStep (pyGet sd "date") (sceneBase sd)).map (fun n =>
    runtimeStep sd (actorsStep sd (genresStep sd (uniqueidStep sd (studioStep sd n)))))

/-- The first three assignments of `_convert_gallery` (no rating). -/
def galleryBase (gd : Dict) : Dict :=
  dictSet
    (dictSet
      (dictSet [] "title" (dictGetD gd "title" (.str "")))
      "originaltitle" (dictGetD gd "title" (.str "")))
    "plot" (dictGetD gd "details" (.str ""))

/-- `StashToNfoConverter._convert_gallery`. -/
def convert_gallery (gd : Dict) : Option Dict :=
  (dateStep (pyGet gd "date") (galleryBase gd)).map (fun n =>
    dictSet
      (actorsStep gd (genresStep gd (uniqueidStep gd (studioStep gd n))))
      "media_type" (.str "gallery"))

/-! ### `StashParser.detect_type` (`parsers.py`) -/

/-- `StashParser.detect_type`: the nested first rule of the source
(`any(key in data for key in ['file','duration','performers'])` guarding
`'file' in data and isinstance(data['file'], dict)`, with fall-through
when the inner test fails) is written as one conjoined condition. -/
def detect_type (d : Dict) : String :=
  if (hasKey d "file" || hasKey d "duration" || hasKey d "performers") &&
      (hasKey d "file" && isDictVal (pyGet d "file")) then "scene"
  else if hasKey d "gender" || hasKey d "birthdate" || hasKey d "ethnicity" ||
      hasKey d "measurements" then "performer"
  else if (hasKey d "folder" || hasKey d "scenes") && hasKey d "performers" then "gallery"
  else if hasKey d "title" || hasKey d "studio" || hasKey d "tags" ||
      hasKey d "performers" then "scene"
  else "unknown"

/-- Modelled from the spec: the five ordered classification rules of
§4.1 exactly as the claim states them — (1) a `file` key holding a
mapping → scene; (2) else any of gender/birthdate/ethnicity/measurements
→ performer; (3) else (folder or scenes) and performers → gallery;
(4) else any of title/studio/tags/performers → scene; (5) else unknown. -/
def detectTypeSpec (d : Dict) : String :=
  if hasKey d "file" && isDictVal (pyGet d "file") then "scene"
  else if hasKey d "gender" || hasKey d "birthdate" || hasKey d "ethnicity" ||
      hasKey d "measurements" then "performer"
  else if (hasKey d "folder" || hasKey d "scenes") && hasKey d "performers" then "gallery"
  else if hasKey d "title" || hasKey d "studio" || hasKey d "tags" ||
      hasKey d "performers" then "scene"
  else "unknown"

/-! ### Image extraction (`extract_images`, `_save_base64_image`,
`_detect_image_format`) -/

/-- `bytes.startswith(sig)` / `str.startswith` on generic lists. -/
def startsWith {α : Type} [DecidableEq α] : List α → List α → Bool
  | [], _ => true
  | _ :: _, [] => false
  | a :: as_, b :: bs => if a = b then startsWith as_ bs else false

/-- Python `needle in hay` (contiguous subsequence test). -/
def containsSeq {α : Type} [DecidableEq α] : List α → List α → Bool
  | needle, [] => needle.isEmpty
  | needle, h :: t => startsWith needle (h :: t) || containsSeq needle t

/-- `StashToNfoConverter._detect_image_format`: empty bytes give `None`;
the signature table is checked in source order; anything else defaults to
`jpg`. Byte values are `Nat`s. -/
def detect_image_format (b : List Nat) : Option String :=
  if b.isEmpty then Option.none
  else if startsWith [0xff, 0xd8, 0xff] b then some "jpg"
  else if startsWith [0x89, 0x50, 0x4e, 0x47, 0x0d, 0x0a, 0x1a, 0x0a] b then some "png"
  else if startsWith [71, 73, 70, 56, 55, 97] b || startsWith [71, 73, 70, 56, 57, 97] b then
    some "gif"
  else if startsWith [82, 73, 70, 70] b && containsSeq [87, 69, 66, 80] (b.take 12) then
    some "webp"
  else if startsWith [66, 77] b then some "bmp"
  else some "jpg"

/-- Value of a standard-base64 alphabet character, if any. -/
def b64Val (c : Char) : Option Nat :=
  if 'A' ≤ c && c ≤ 'Z' then some (c.toNat - 65)
  else if 'a' ≤ c && c ≤ 'z' then some (c.toNat - 97 + 26)
  else if '0' ≤ c && c ≤ '9' then some (c.toNat - 48 + 52)
  else if c = '+' then some 62
  else if c = '/' then some 63
  else Option.none

/-- Decode complete and final partial base64 groups into bytes
(2 leftover chars → 1 byte, 3 → 2 bytes). -/
def b64Groups : List Nat → Option (List Nat)
  | [] => some []
  | [_] => Option.none
  | [v₁, v₂] => some [v₁ * 4 + v₂ / 16]
  | [v₁, v₂, v₃] => some [v₁ * 4 + v₂ / 16, v₂ % 16 * 16 + v₃ / 4]
  | v₁ :: v₂ :: v₃ :: v₄ :: rest =>
      (b64Groups rest).map (fun bs =>
        (v₁ * 4 + v₂ / 16) :: (v₂ % 16 * 16 + v₃ / 4) :: (v₃ % 4 * 64 + v₄) :: bs)

/-- `base64.b64decode` with `validate=False`: characters outside the
alphabet and `'='` are discarded, data up to the first `'='` is decoded,
and missing padding (`len % 4 == 1`, or `len % 4 ∈ {2,3}` without a
padding character) raises `binascii.Error` (`none`).  The lenient
treatment of malformed padding by CPython's `a2b_base64` is approximated;
every theorem below either hypothesises a successful decode or evaluates
on well-formed payloads. -/
def b64decode (s : String) : Option (List Nat) :=
  let kept := s.data.filter (fun c => (b64Val c).isSome || c = '=')
  let body := kept.takeWhile (fun c => c ≠ '=')
  let pads := kept.length - body.length
  match body.mapM b64Val with
  | Option.none => Option.none
  | some vals =>
      if vals.length % 4 = 0 then b64Groups vals
      else if vals.length % 4 = 1 then Option.none
      else if pads = 0 then Option.none
      else b64Groups vals

/-- The data-URI strip plus base64 decode of `_save_base64_image`:
a `data:` string without a comma raises `IndexError`, which the blanket
`except` of the source turns into a skip — both failure modes are
`none`. -/
def decode_payload (image_data : String) : Option (List Nat) :=
  if startsWith "data:".data image_data.data then
    match image_data.data.dropWhile (fun c => c ≠ ',') with
    | [] => Option.none
    | _ :: rest => b64decode ⟨rest⟩
  else b64decode image_data

/-- One extracted-image record appended to `self.extracted_images`. -/
structure Artifact where
  type : String
  filename : String
  size : Nat
deriving DecidableEq

/-- The filesystem, keyed by (output directory, filename); writing always
succeeds in the model (a failing write is one more source of the
blanket-`except` skip, not exercised by any claim). -/
abbrev FS := List ((String × String) × List Nat)

/-- Look up a file's bytes. -/
def fsGet? : FS → String × String → Option (List Nat)
  | [], _ => Option.none
  | (k', v) :: rest, k => if k' = k then some v else fsGet? rest k

/-- Write (create or overwrite) a file. -/
def fsSet : FS → String × String → List Nat → FS
  | [], k, v => [(k, v)]
  | (k', v') :: rest, k, v =>
      if k' = k then (k, v) :: rest else (k', v') :: fsSet rest k v

/-- `StashToNfoConverter._save_base64_image`: decode, sniff the format,
build the role-dependent filename, write the file and append an artifact
record to `self.extracted_images`. -/
def save_base64_image (image_data : String) (outDir base_name image_type : String)
    (fs : FS) (st : List Artifact) : Option String × FS × List Artifact :=
  match decode_payload image_data with
  | Option.none => (Option.none, fs, st)
  | some bytes =>
      match detect_image_format bytes with
      | Option.none => (Option.none, fs, st)
      | some ext =>
          let filename :=
            if image_type = "poster" || image_type = "fanart" then
              image_type ++ "." ++ ext
            else base_name ++ "-" ++ image_type ++ "." ++ ext
          (some filename, fsSet fs (outDir, filename) bytes,
            st ++ [⟨image_type, filename, bytes.length⟩])

/-- The fixed candidate-field table of `extract_images`, in source
(insertion) order. -/
def image_fields : List (String × String) :=
  [("cover", "poster"), ("image", "thumb"), ("poster", "poster"),
   ("thumbnail", "thumb"), ("fanart", "fanart")]

/-- The field loop of `extract_images`: a present, non-empty string value
is decoded and saved; everything else is skipped. -/
def extractGo (sd : Dict) (outDir base_name : String) :
    List (String × String) → FS → List Artifact → List String →
    List String × FS × List Artifact
  | [], fs, st, saved => (saved, fs, st)
  | (field, ty) :: rest, fs, st, saved =>
      match dictGet? sd field with
      | some (.str s) =>
          if s = "" then extractGo sd outDir base_name rest fs st saved
          else
            match save_base64_image s outDir base_name ty fs st with
            | (some f, fs', st') =>
                extractGo sd outDir base_name rest fs' st' (saved ++ [f])
            | (Option.none, fs', st') => extractGo sd outDir base_name rest fs' st' saved
      | _ => extractGo sd outDir base_name rest fs st saved

/-- `StashToNfoConverter.extract_images`: clears `self.extracted_images`
(the incoming `st` is discarded), then scans the field table.  Returns
(saved filenames, filesystem, final `extracted_images`). -/
def extract_images (sd : Dict) (outDir base_name : String) (fs : FS)
    (st : List Artifact) : List String × FS × List Artifact :=
  let _ := st
  extractGo sd outDir base_name image_fields fs [] []

/-! ### `NfoGenerator` (`nfo_generator.py`)

The generator is modelled in its `pretty_print=False` configuration: the
`minidom` pretty-printer of the `pretty_print=True` branch is not
embedded (no claim below depends on indentation).  `ElementTree` elements
carry their tag, attributes (in `set` order), optional text (Python
`None` until assigned) and children; `ET.tostring` is embedded with its
default `short_empty_elements=True`. -/

/-- An `xml.etree.ElementTree.Element`. -/
inductive Element where
  | mk (tag : String) (attrib : List (String × PyVal)) (text : Option PyVal)
      (children : List Element)

/-- Element tag. -/
def Element.tag : Element → String
  | .mk t _ _ _ => t

/-- Element attributes. -/
def Element.attrib : Element → List (String × PyVal)
  | .mk _ a _ _ => a

/-- Element text (`none` = Python `None`, i.e. never assigned). -/
def Element.text : Element → Option PyVal
  | .mk _ _ t _ => t

/-- Element children. -/
def Element.children : Element → List Element
  | .mk _ _ _ c => c

/-- `NfoGenerator._add_text_element`: a child with
`elem.text = text if text else ''`. -/
def add_text_element (tag : String) (text : PyVal) : Element :=
  .mk tag [] (some (if pyTruthy text then text else .str "")) []

/-- `ET._escape_cdata`: `&`, `<`, `>`. -/
def escapeCdata (s : String) : String :=
  ⟨s.data.foldr (fun c acc =>
    if c = '&' then "&amp;".data ++ acc
    else if c = '<' then "&lt;".data ++ acc
    else if c = '>' then "&gt;".data ++ acc
    else c :: acc) []⟩

/-- `ET._escape_attrib`: `&`, `<`, `>`, `"` and whitespace control
characters. -/
def escapeAttrib (s : String) : String :=
  ⟨s.data.foldr (fun c acc =>
    if c = '&' then "&amp;".data ++ acc
    else if c = '<' then "&lt;".data ++ acc
    else if c = '>' then "&gt;".data ++ acc
    else if c = '"' then "&quot;".data ++ acc
    else if c = '\r' then "&#13;".data ++ acc
    else if c = '\n' then "&#10;".data ++ acc
    else if c = '\t' then "&#09;".data ++ acc
    else c :: acc) []⟩

/-- Serialize the attribute list (` k="v"` per attribute, in `set`
order); a non-string attribute value makes `_escape_attrib` raise
(`none`). -/
def serializeAttrs : List (String × PyVal) → Option String
  | [] => some ""
  | (k, v) :: rest =>
      match v with
      | .str s =>
          (serializeAttrs rest).map (fun r => " " ++ k ++ "=\"" ++ escapeAttrib s ++ "\"" ++ r)
      | _ => Option.none

/-- The text written inside an element: nothing for falsy text, the
escaped string for truthy string text; truthy non-string text makes
`_escape_cdata` raise (`none`). -/
def serializeText : Option PyVal → Option String
  | Option.none => some ""
  | some v =>
      if pyTruthy v then
        match v with
        | .str s => some (escapeCdata s)
        | _ => Option.none
      else some ""

/-- Whether `ET._serialize_xml` takes the long (open/close) form:
`if text or len(elem)`. -/
def longForm (text : Option PyVal) (children : List Element) : Bool :=
  (match text with
   | some v => pyTruthy v
   | Option.none => false) || !children.isEmpty

mutual

/-- `ET.tostring` body (`_serialize_xml` with the default
`short_empty_elements=True`): an element whose text is falsy and which
has no children is emitted self-closing as `<tag />`. -/
def serializeElem : Element → Option String
  | .mk tag attrs text children =>
      match serializeAttrs attrs with
      | Option.none => Option.none
      | some attrStr =>
          if longForm text children then
            match serializeText text with
            | Option.none => Option.none
            | some txt =>
                match serializeChildren children with
                | Option.none => Option.none
                | some inner =>
                    some ("<" ++ tag ++ attrStr ++ ">" ++ txt ++ inner ++ "</" ++ tag ++ ">")
          else some ("<" ++ tag ++ attrStr ++ " />")

/-- Serialize a child list in order. -/
def serializeChildren : List Element → Option String
  | [] => some ""
  | e :: es =>
      match serializeElem e with
      | Option.none => Option.none
      | some s =>
          match serializeChildren es with
          | Option.none => Option.none
          | some r => some (s ++ r)

end

/-- Python iteration (`for x in v`) over the values the renderer loops
on: lists yield their items, strings their characters, dicts their keys;
iterating anything else raises `TypeError` (`none`). -/
def iterPy : PyVal → Option (List PyVal)
  | .list l => some l
  | .str s => some (s.data.map (fun c => .str ⟨[c]⟩))
  | .dict d => some (d.map (fun kv => .str kv.1))
  | _ => Option.none

/-- The `<uniqueid>` element: `type` attribute (default `stash`), a
`default="true"` attribute when `default` is truthy, text = `value`
(default `''`). -/
def uniqueidElem (u : Dict) : Element :=
  .mk "uniqueid"
    ([("type", dictGetD u "type" (.str "stash"))] ++
      (if pyTruthy (pyGet u "default") then [("default", .str "true")] else []))
    (some (dictGetD u "value" (.str ""))) []

/-- One `<genre>`/`<tag>`-style element per truthy entry. -/
def perEntryElems (tag : String) (entries : List PyVal) : List Element :=
  entries.filterMap (fun g => if pyTruthy g then some (add_text_element tag g) else Option.none)

/-- One `<actor>` subtree: `<name>`/`<role>` only when truthy, `<order>`
only when not `None`; the `<actor>` element's own text is never set. -/
def actorElem (a : Dict) : Element :=
  .mk "actor" [] Option.none
    ((if pyTruthy (dictGetD a "name" (.str "")) then
        [add_text_element "name" (dictGetD a "name" (.str ""))] else []) ++
      (if pyTruthy (dictGetD a "role" (.str "")) then
        [add_text_element "role" (dictGetD a "role" (.str ""))] else []) ++
      (if isNone (pyGet a "order") then []
        else [add_text_element "order" (.str (pyStr (pyGet a "order")))]))

/-- `NfoGenerator._generate_movie_nfo` up to the element tree.  `none`
models the uncaught `TypeError` of iterating a non-iterable `genres` or
`actors` value. -/
def generateMovieTree (nfo : Dict) : Option Element :=
  match iterPy (dictGetD nfo "genres" (.list [])), iterPy (dictGetD nfo "actors" (.list [])) with
  | some genres, some actors =>
      some (.mk "movie" [] Option.none
        ([add_text_element "title" (dictGetD nfo "title" (.str "")),
          add_text_element "originaltitle" (dictGetD nfo "originaltitle" (.str "")),
          add_text_element "plot" (dictGetD nfo "plot" (.str "")),
          add_text_element "userrating" (.str (pyStr (dictGetD nfo "userrating" (.num 0))))] ++
          (if pyTruthy (pyGet nfo "premiered") then
            [add_text_element "premiered" (pyGet nfo "premiered")] else []) ++
          (if pyTruthy (pyGet nfo "year") then
            [add_text_element "year" (.str (pyStr (pyGet nfo "year")))] else []) ++
          (if pyTruthy (pyGet nfo "studio") then
            [add_text_element "studio" (pyGet nfo "studio")] else []) ++
          (if pyTruthy (pyGet nfo "runtime") then
            [add_text_element "runtime" (.str (pyStr (pyGet nfo "runtime")))] else []) ++
          (match pyGet nfo "uniqueid" with
           | .dict u => if u.isEmpty then [] else [uniqueidElem u]
           | _ => []) ++
          perEntryElems "genre" genres ++
          perEntryElems "tag" genres ++
          actors.filterMap (fun ad =>
            match ad with
            | .dict a => some (actorElem a)
            | _ => Option.none)))
  | _, _ => Option.none

/-- The per-key elements for the `details` map of
`_generate_actor_nfo`: truthy list values yield one element per truthy
item, other truthy values one stringified element. -/
def detailElems (details : PyVal) : List Element :=
  match details with
  | .dict dts =>
      (dts.map (fun kv =>
        if pyTruthy kv.2 then
          match kv.2 with
          | .list items =>
              items.filterMap (fun it =>
                if pyTruthy it then some (add_text_element kv.1 (.str (pyStr it)))
                else Option.none)
          | _ => [add_text_element kv.1 (.str (pyStr kv.2))]
        else [])).flatten
  | _ => []

/-- The per-key elements for the `social` map (scalars only). -/
def socialElems (social : PyVal) : List Element :=
  match social with
  | .dict ss =>
      ss.filterMap (fun kv =>
        if pyTruthy kv.2 then some (add_text_element kv.1 (.str (pyStr kv.2)))
        else Option.none)
  | _ => []

/-- `NfoGenerator._generate_actor_nfo` up to the element tree. -/
def generateActorTree (nfo : Dict) : Element :=
  .mk "actor" [] Option.none
    ([add_text_element "name" (dictGetD nfo "name" (.str ""))] ++
      (if pyTruthy (dictGetD nfo "biography" (.str "")) then
        [add_text_element "biography" (dictGetD nfo "biography" (.str ""))] else []) ++
      (if pyTruthy (pyGet nfo "birthdate") then
        [add_text_element "birthdate" (pyGet nfo "birthdate")] else []) ++
      detailElems (dictGetD nfo "details" (.dict [])) ++
      socialElems (dictGetD nfo "social" (.dict [])))

/-- `NfoGenerator._format_xml` with `pretty_print=False`: the literal XML
declaration followed directly by the serialized tree. -/
def format_xml (encoding : String) (root : Element) : Option String :=
  (serializeElem root).map (fun x =>
    "<?xml version=\"1.0\" encoding=\"" ++ encoding ++ "\" standalone=\"yes\" ?>" ++ x)

/-- `NfoGenerator.generate` (with `pretty_print=False`): scene/gallery →
movie NFO, performer → actor NFO, anything else raises `ValueError`
(`none`). -/
def generate (encoding : String) (nfo : Dict) (data_type : String) : Option String :=
  if data_type = "scene" || data_type = "gallery" then
    match generateMovieTree nfo with
    | some t => format_xml encoding t
    | Option.none => Option.none
  else if data_type = "performer" then format_xml encoding (generateActorTree nfo)
  else Option.none

/-! ### Basic lemmas about the dict and list operations -/

theorem dictGet?_dictSet_self : ∀ (d : Dict) (k : String) (v : PyVal),
    dictGet? (dictSet d k v) k = some v
  | [], k, v => by simp [dictSet, dictGet?]
  | (k', v') :: rest, k, v => by
      by_cases h : k' = k
      · simp [dictSet, dictGet?, h]
      · simp [dictSet, dictGet?, h, dictGet?_dictSet_self rest k v]

theorem dictGet?_dictSet_ne : ∀ (d : Dict) (k' k : String) (v : PyVal), k' ≠ k →
    dictGet? (dictSet d k' v) k = dictGet? d k
  | [], k', k, v, h => by simp [dictSet, dictGet?, h]
  | (k₀, v₀) :: rest, k', k, v, h => by
      by_cases h₀ : k₀ = k'
      · subst h₀; simp [dictSet, dictGet?, h]
      · simp only [dictSet, if_neg h₀]
        by_cases h₁ : k₀ = k
        · simp [dictGet?, h₁]
        · simp [dictGet?, h₁, dictGet?_dictSet_ne rest k' k v h]

theorem fsGet?_fsSet_self : ∀ (fs : FS) (k : String × String) (v : List Nat),
    fsGet? (fsSet fs k v) k = some v
  | [], k, v => by simp [fsSet, fsGet?]
  | (k', v') :: rest, k, v => by
      by_cases h : k' = k
      · simp [fsSet, fsGet?, h]
      · simp [fsSet, fsGet?, h, fsGet?_fsSet_self rest k v]

theorem fsGet?_fsSet_ne : ∀ (fs : FS) (k' k : String × String) (v : List Nat), k' ≠ k →
    fsGet? (fsSet fs k' v) k = fsGet? fs k
  | [], k', k, v, h => by simp [fsSet, fsGet?, h]
  | (k₀, v₀) :: rest, k', k, v, h => by
      by_cases h₀ : k₀ = k'
      · subst h₀; simp [fsSet, fsGet?, h]
      · simp only [fsSet, if_neg h₀]
        by_cases h₁ : k₀ = k
        · simp [fsGet?, h₁]
        · simp [fsGet?, h₁, fsGet?_fsSet_ne rest k' k v h]

theorem startsWith_iff {α : Type} [DecidableEq α] :
    ∀ (sig bs : List α), startsWith sig bs = true ↔ ∃ t, bs = sig ++ t
  | [], bs => by simp [startsWith]
  | a :: as_, [] => by simp [startsWith]
  | a :: as_, b :: bs => by
      by_cases h : a = b
      · subst h
        simpa [startsWith] using startsWith_iff as_ bs
      · simp only [startsWith, if_neg h, List.cons_append, List.cons.injEq]
        constructor
        · intro hf; exact absurd hf (by simp)
        · rintro ⟨t, hb, -⟩; exact absurd hb.symm h

/-! ### C9: ordered, first-match-wins type detection -/

/-- C9: `detect_type` realises exactly the five ordered rules of §4.1
with first-match-wins semantics: a record whose `file` key holds a
mapping is a scene; otherwise the performer keys are checked, then the
gallery rule, then the metadata fallback, and finally `unknown`.  In
particular a `file` value that is not a mapping never fires rule 1 (the
outer `any(…)` of the source adds nothing, since `'file' in data` already
implies it), even when `duration` or `performers` is present. -/
theorem claim9_detect_type_ordered_rules (d : Dict) :
    detect_type d = detectTypeSpec d := by
  unfold detect_type detectTypeSpec
  cases h : hasKey d "file" <;> simp [h]

/-! ### C7: positional, skip-stable actor conversion -/

/-- The actor produced, if any, by one (index, entry) pair: a string
entry gives that name with an empty role, a mapping entry gives its
`name`/`role` with empty-string defaults, anything else is skipped; the
`order` is always the original enumeration index. -/
def actorOf (ip : Nat × PyVal) : Option Actor :=
  match ip.2 with
  | .str s => some ⟨.str s, .str "", ip.1⟩
  | .dict d => some ⟨dictGetD d "name" (.str ""), dictGetD d "role" (.str ""), ip.1⟩
  | _ => Option.none

/-- Modelled from the spec: the claim's characterisation of the actor
list — enumerate the input, keep string/mapping entries with their
original index as `order`, drop the rest without renumbering. -/
def actorsSpec (performers : List PyVal) : List Actor :=
  performers.enum.filterMap actorOf

theorem actorsGo_eq_enumFrom (ps : List PyVal) :
    ∀ i : Nat, actorsGo ps i = (ps.enumFrom i).filterMap actorOf := by
  induction ps with
  | nil => intro i; rfl
  | cons p rest ih =>
      intro i
      cases p <;>
        simp [actorsGo, List.enumFrom_cons, List.filterMap_cons, actorOf, ih (i + 1)]

/-- C7: the converted actor list is exactly the positional enumeration of
the performers list with invalid entries dropped: the entry at input
index `i`, when a string or mapping, yields an actor whose `order` is
`i` (string entries: `name` = the string, `role` = `''`; mapping
entries: `name`/`role` from the mapping with empty-string defaults);
other entries yield nothing and do not shift later orders, and duplicate
names are preserved (no deduplication is performed anywhere). -/
theorem claim7_actor_order_positional (ps : List PyVal) :
    convert_performers_to_actors ps = actorsSpec ps := by
  simpa [convert_performers_to_actors, actorsSpec, List.enum] using actorsGo_eq_enumFrom ps 0

/-! ### C3: exact magic-byte table, with the empty-input exception -/

/-- C3 (amended): on the documented signatures detection is exact —
`FFD8FF` → jpg, the PNG signature → png, `GIF87a`/`GIF89a` → gif, a
`RIFF` prefix with `WEBP` in the first 12 bytes → webp, `BM` → bmp — and
every NON-EMPTY byte sequence matching none of the signatures defaults to
jpg; the empty byte sequence, however, yields no format at all (`None`),
so that field is skipped rather than extracted as `*.jpg`. -/
theorem claim3_magic_byte_table :
    (∀ b : List Nat, startsWith [0xff, 0xd8, 0xff] b = true →
      detect_image_format b = some "jpg") ∧
    (∀ b : List Nat, startsWith [0x89, 0x50, 0x4e, 0x47, 0x0d, 0x0a, 0x1a, 0x0a] b = true →
      detect_image_format b = some "png") ∧
    (∀ b : List Nat, startsWith [71, 73, 70, 56, 55, 97] b = true ∨
        startsWith [71, 73, 70, 56, 57, 97] b = true →
      detect_image_format b = some "gif") ∧
    (∀ b : List Nat, startsWith [82, 73, 70, 70] b = true →
      containsSeq [87, 69, 66, 80] (b.take 12) = true →
      detect_image_format b = some "webp") ∧
    (∀ b : List Nat, startsWith [66, 77] b = true → detect_image_format b = some "bmp") ∧
    (∀ b : List Nat, b ≠ [] →
      startsWith [0xff, 0xd8, 0xff] b = false →
      startsWith [0x89, 0x50, 0x4e, 0x47, 0x0d, 0x0a, 0x1a, 0x0a] b = false →
      startsWith [71, 73, 70, 56, 55, 97] b = false →
      startsWith [71, 73, 70, 56, 57, 97] b = false →
      (startsWith [82, 73, 70, 70] b = false ∨
        containsSeq [87, 69, 66, 80] (b.take 12) = false) →
      startsWith [66, 77] b = false →
      detect_image_format b = some "jpg") ∧
    detect_image_format [] = Option.none := by
  refine ⟨?_, ?_, ?_, ?_, ?_, ?_, rfl⟩
  · intro b h
    obtain ⟨t, rfl⟩ := (startsWith_iff _ _).1 h
    simp [detect_image_format, startsWith]
  · intro b h
    obtain ⟨t, rfl⟩ := (startsWith_iff _ _).1 h
    simp [detect_image_format, startsWith]
  · rintro b (h | h) <;>
    · obtain ⟨t, rfl⟩ := (startsWith_iff _ _).1 h
      simp [detect_image_format, startsWith]
  · intro b h hc
    obtain ⟨t, rfl⟩ := (startsWith_iff _ _).1 h
    simp at hc
    simp [detect_image_format, startsWith, hc]
  · intro b h
    obtain ⟨t, rfl⟩ := (startsWith_iff _ _).1 h
    simp [detect_image_format, startsWith]
  · intro b hne h₁ h₂ h₃ h₄ h₅ h₆
    obtain ⟨x, xs, rfl⟩ : ∃ x xs, b = x :: xs := by
      cases b with
      | nil => exact absurd rfl hne
      | cons x xs => exact ⟨x, xs, rfl⟩
    rcases h₅ with h₅ | h₅
    · simp [detect_image_format, h₁, h₂, h₃, h₄, h₅, h₆]
    · simp at h₅
      simp [detect_image_format, h₁, h₂, h₃, h₄, h₅, h₆]

/-- C3 counterexample: the empty byte sequence matches none of the
signatures, yet it is mapped to `None` (the field is skipped), not to
`jpg` as the claim states for every unmatched sequence. -/
theorem claim3_counterexample :
    startsWith [0xff, 0xd8, 0xff] ([] : List Nat) = false ∧
    startsWith [0x89, 0x50, 0x4e, 0x47, 0x0d, 0x0a, 0x1a, 0x0a] ([] : List Nat) = false ∧
    startsWith [71, 73, 70, 56, 55, 97] ([] : List Nat) = false ∧
    startsWith [71, 73, 70, 56, 57, 97] ([] : List Nat) = false ∧
    startsWith [82, 73, 70, 70] ([] : List Nat) = false ∧
    startsWith [66, 77] ([] : List Nat) = false ∧
    detect_image_format [] = Option.none ∧
    detect_image_format [] ≠ some "jpg" := by
  refine ⟨rfl, rfl, rfl, rfl, rfl, rfl, rfl, by decide⟩

/-- Witness for C3: the theorem applied at concrete inputs — an
unrecognised non-empty sequence defaults to jpg, and the BMP signature is
detected exactly. -/
theorem claim3_witness :
    detect_image_format [0, 1, 2] = some "jpg" ∧
    detect_image_format [66, 77, 0] = some "bmp" := by
  constructor
  · exact claim3_magic_byte_table.2.2.2.2.2.1 [0, 1, 2] (by decide) rfl rfl rfl rfl
      (Or.inl rfl) rfl
  · exact claim3_magic_byte_table.2.2.2.2.1 [66, 77, 0] rfl

/-! ### Preservation lemmas for the field-mapping steps -/

theorem studioStep_get_ne (sd n : Dict) (k : String) (h : k ≠ "studio") :
    dictGet? (studioStep sd n) k = dictGet? n k :=
  dictGet?_dictSet_ne _ _ _ _ (Ne.symm h)

theorem uniqueidStep_get_ne (sd n : Dict) (k : String) (h : k ≠ "uniqueid") :
    dictGet? (uniqueidStep sd n) k = dictGet? n k := by
  unfold uniqueidStep
  split
  · exact dictGet?_dictSet_ne _ _ _ _ (Ne.symm h)
  · rfl

theorem genresStep_get_ne (sd n : Dict) (k : String) (h : k ≠ "genres") :
    dictGet? (genresStep sd n) k = dictGet? n k := by
  unfold genresStep
  split
  · exact dictGet?_dictSet_ne _ _ _ _ (Ne.symm h)
  · rfl

theorem actorsStep_get_ne (sd n : Dict) (k : String) (h : k ≠ "actors") :
    dictGet? (actorsStep sd n) k = dictGet? n k := by
  unfold actorsStep
  split
  · exact dictGet?_dictSet_ne _ _ _ _ (Ne.symm h)
  · rfl

theorem runtimeStep_get_ne (sd n : Dict) (k : String) (h : k ≠ "runtime") :
    dictGet? (runtimeStep sd n) k = dictGet? n k := by
  unfold runtimeStep
  repeat' split
  all_goals first
    | exact dictGet?_dictSet_ne _ _ _ _ (Ne.symm h)
    | rfl

/-- Lookups other than `premiered`/`year` pass through a successful date
step unchanged. -/
theorem dateStep_get_ne (v : PyVal) (n n' : Dict) (k : String)
    (h₁ : k ≠ "premiered") (h₂ : k ≠ "year") (h : dateStep v n = some n') :
    dictGet? n' k = dictGet? n k := by
  unfold dateStep at h
  split at h
  · split at h
    · split at h
      · cases h
        rw [dictGet?_dictSet_ne _ _ _ _ (Ne.symm h₂),
          dictGet?_dictSet_ne _ _ _ _ (Ne.symm h₁)]
      · cases h
        rw [dictGet?_dictSet_ne _ _ _ _ (Ne.symm h₁)]
    · cases h
  · cases h
    rfl

/-- The composite of the post-date steps of `_convert_scene`. -/
theorem sceneRest_get_ne (sd n : Dict) (k : String) (h₁ : k ≠ "studio")
    (h₂ : k ≠ "uniqueid") (h₃ : k ≠ "genres") (h₄ : k ≠ "actors") (h₅ : k ≠ "runtime") :
    dictGet? (runtimeStep sd (actorsStep sd (genresStep sd
      (uniqueidStep sd (studioStep sd n))))) k = dictGet? n k := by
  rw [runtimeStep_get_ne _ _ _ h₅, actorsStep_get_ne _ _ _ h₄, genresStep_get_ne _ _ _ h₃,
    uniqueidStep_get_ne _ _ _ h₂, studioStep_get_ne _ _ _ h₁]

/-! ### C5: linear, unclamped rating conversion -/

/-- C5: in every successfully mapped scene record, when the source
`rating` parses as a number `r` the mapped `userrating` is exactly
`r * 2` with no clamping; when `rating` is absent, `None`, or does not
parse as a number, `userrating` is `0`. -/
theorem claim5_userrating_linear (sd m : Dict) (h : convert_scene sd = some m) :
    (∀ v r, dictGet? sd "rating" = some v → pyFloat v = some r →
      dictGet? m "userrating" = some (.num (r * 2))) ∧
    (dictGet? sd "rating" = Option.none → dictGet? m "userrating" = some (.num 0)) ∧
    (∀ v, dictGet? sd "rating" = some v → pyFloat v = Option.none →
      dictGet? m "userrating" = some (.num 0)) := by
  obtain ⟨n', hdate, rfl⟩ := Option.map_eq_some'.1 h
  have hbase : dictGet? (runtimeStep sd (actorsStep sd (genresStep sd
      (uniqueidStep sd (studioStep sd n'))))) "userrating" =
      some (rating_value (pyGet sd "rating")) := by
    rw [sceneRest_get_ne sd n' "userrating" (by decide) (by decide) (by decide) (by decide)
        (by decide),
      dateStep_get_ne _ _ _ _ (by decide) (by decide) hdate]
    exact dictGet?_dictSet_self _ _ _
  refine ⟨?_, ?_, ?_⟩
  · intro v r hv hr
    rw [hbase]
    have hpg : pyGet sd "rating" = v := by simp [pyGet, dictGetD, hv]
    rw [hpg]
    have hnn : isNone v = false := by
      cases v <;> simp_all [pyFloat, isNone]
    simp [rating_value, hnn, hr]
  · intro hv
    rw [hbase]
    have hpg : pyGet sd "rating" = .none := by simp [pyGet, dictGetD, hv]
    rw [hpg]
    rfl
  · intro v hv hr
    rw [hbase]
    have hpg : pyGet sd "rating" = v := by simp [pyGet, dictGetD, hv]
    rw [hpg]
    cases hnn : isNone v <;> simp [rating_value, hnn, hr]

/-- Witness for C5: rating `"4"` parses as `4` and yields
`userrating = 8`, via the theorem applied at a concrete record. -/
theorem claim5_witness :
    ∃ m, convert_scene [("rating", .str "4")] = some m ∧
      dictGet? m "userrating" = some (.num 8) := by
  refine ⟨_, rfl, ?_⟩
  have h := (claim5_userrating_linear [("rating", .str "4")] _ rfl).1 (.str "4") 4 rfl
    (by decide)
  norm_num at h
  exact h

/-! ### C6: runtime needs a truthy, numeric duration -/

/-- Modelled from the claim as amended: runtime is present exactly when
`file` is a mapping whose `duration` is present *and truthy and parses as
a number*, and then equals the duration divided by 60, truncated toward
zero. -/
def runtimeSpec (sd : Dict) : Option PyVal :=
  match dictGetD sd "file" (.dict []) with
  | .dict f =>
      if pyTruthy (pyGet f "duration") then
        match pyFloat (pyGet f "duration") with
        | some q => some (.num ((pyIntTrunc (q / 60) : ℤ) : ℚ))
        | Option.none => Option.none
      else Option.none
  | _ => Option.none

/-- C6 (amended): in every successfully mapped scene record, `runtime`
equals `int(float(duration) / 60)` minutes when `file` is a mapping and
its `duration` value is truthy and parses as a number; when `file` is not
a mapping, or `duration` is absent, falsy (e.g. `0`), or non-numeric,
`runtime` is absent from the mapped record. -/
theorem claim6_runtime_truthy_duration (sd m : Dict) (h : convert_scene sd = some m) :
    dictGet? m "runtime" = runtimeSpec sd := by
  obtain ⟨n', hdate, rfl⟩ := Option.map_eq_some'.1 h
  have hnone : dictGet? (actorsStep sd (genresStep sd
      (uniqueidStep sd (studioStep sd n')))) "runtime" = Option.none := by
    rw [actorsStep_get_ne _ _ _ (by decide), genresStep_get_ne _ _ _ (by decide),
      uniqueidStep_get_ne _ _ _ (by decide), studioStep_get_ne _ _ _ (by decide),
      dateStep_get_ne _ _ _ _ (by decide) (by decide) hdate]
    simp [sceneBase]
    rw [dictGet?_dictSet_ne _ _ _ _ (by decide), dictGet?_dictSet_ne _ _ _ _ (by decide),
      dictGet?_dictSet_ne _ _ _ _ (by decide), dictGet?_dictSet_ne _ _ _ _ (by decide)]
    rfl
  unfold runtimeStep runtimeSpec
  split
  · split
    · split
      · exact dictGet?_dictSet_self _ _ _
      · exact hnone
    · exact hnone
  · exact hnone

/-- C6 counterexample: a scene whose `file` mapping has `duration` key
present with value `0` — the claim requires `runtime = 0 / 60 = 0` to be
present, but the code's `if duration:` truthiness test drops it, so
`runtime` is absent. -/
theorem claim6_counterexample :
    dictGet? [("file", PyVal.dict [("duration", PyVal.num 0)])] "file" =
      some (.dict [("duration", .num 0)]) ∧
    dictGet? [("duration", PyVal.num 0)] "duration" = some (.num 0) ∧
    (∃ m, convert_scene [("file", PyVal.dict [("duration", PyVal.num 0)])] = some m ∧
      dictGet? m "runtime" = Option.none) := by
  exact ⟨rfl, rfl, ⟨_, rfl, rfl⟩⟩

/-- Witness for C6: duration 90 seconds gives runtime 1 minute
(`int(90 / 60) = 1`), via the theorem applied at a concrete record. -/
theorem claim6_witness :
    (90 : ℚ) / 60 = mkRat 3 2 ∧ pyIntTrunc (mkRat 3 2) = 1 ∧
    ∃ m, convert_scene [("file", PyVal.dict [("duration", PyVal.num 90)])] = some m ∧
      dictGet? m "runtime" = some (.num ((pyIntTrunc ((90 : ℚ) / 60) : ℤ) : ℚ)) := by
  refine ⟨by rw [Rat.mkRat_eq_div]; norm_num, by decide, _, rfl, ?_⟩
  rw [claim6_runtime_truthy_duration [("file", PyVal.dict [("duration", PyVal.num 90)])] _ rfl]
  rfl

/-! ### C1: premiered is normalized, year needs the strict parse of the
original string -/

/-- The date step on a non-empty string value, with the two `year`
outcomes made explicit. -/
theorem dateStep_str (s : String) (hs : s ≠ "") (n : Dict) :
    dateStep (.str s) n = some (match strictYMD s with
      | some (y, _, _) =>
          dictSet (dictSet n "premiered" (.str (convert_date s))) "year" (.num (y : ℚ))
      | Option.none => dictSet n "premiered" (.str (convert_date s))) := by
  unfold dateStep
  rw [if_pos (by simp [pyTruthy, hs])]
  show (match strictYMD s with
    | some (y, _, _) =>
        some (dictSet (dictSet n "premiered" (.str (convert_date s))) "year"
          (.num (y : ℚ)))
    | Option.none => some (dictSet n "premiered" (.str (convert_date s)))) = _
  cases hy : strictYMD s with
  | none => rfl
  | some ymd => obtain ⟨y, m₀, d₀⟩ := ymd; rfl

theorem sceneBase_get_year : dictGet? (sceneBase sd) "year" = Option.none := by
  unfold sceneBase
  rw [dictGet?_dictSet_ne _ _ _ _ (by decide), dictGet?_dictSet_ne _ _ _ _ (by decide),
    dictGet?_dictSet_ne _ _ _ _ (by decide), dictGet?_dictSet_ne _ _ _ _ (by decide)]
  rfl

theorem galleryBase_get_year : dictGet? (galleryBase gd) "year" = Option.none := by
  unfold galleryBase
  rw [dictGet?_dictSet_ne _ _ _ _ (by decide), dictGet?_dictSet_ne _ _ _ _ (by decide),
    dictGet?_dictSet_ne _ _ _ _ (by decide)]
  rfl

/-- The composite of the post-date steps of `_convert_gallery`,
including the final `media_type` assignment. -/
theorem galleryRest_get_ne (gd n : Dict) (k : String) (h₁ : k ≠ "studio")
    (h₂ : k ≠ "uniqueid") (h₃ : k ≠ "genres") (h₄ : k ≠ "actors")
    (h₅ : k ≠ "media_type") :
    dictGet? (dictSet (actorsStep gd (genresStep gd
      (uniqueidStep gd (studioStep gd n)))) "media_type" (.str "gallery")) k =
      dictGet? n k := by
  rw [dictGet?_dictSet_ne _ _ _ _ (Ne.symm h₅), actorsStep_get_ne _ _ _ h₄,
    genresStep_get_ne _ _ _ h₃, uniqueidStep_get_ne _ _ _ h₂, studioStep_get_ne _ _ _ h₁]

/-- C1: for every scene and gallery raw record whose `date` is a truthy
(non-empty) string, the mapped record's `premiered` equals the
DateNormalizer's output on that string, while `year` is present — holding
the parsed year — exactly when the original, unnormalized string parses
against the strict `%Y-%m-%d` layout; when that strict parse fails,
`year` is absent even though `premiered` holds the normalized value. -/
theorem claim1_premiered_year_asymmetry (sd : Dict) (s : String)
    (hd : pyGet sd "date" = .str s) (hs : s ≠ "") :
    (∃ m, convert_scene sd = some m ∧
      dictGet? m "premiered" = some (.str (convert_date s)) ∧
      dictGet? m "year" = (strictYMD s).map (fun ymd => PyVal.num (ymd.1 : ℚ))) ∧
    (∃ m, convert_gallery sd = some m ∧
      dictGet? m "premiered" = some (.str (convert_date s)) ∧
      dictGet? m "year" = (strictYMD s).map (fun ymd => PyVal.num (ymd.1 : ℚ))) := by
  constructor
  · refine ⟨_, by unfold convert_scene; rw [hd, dateStep_str s hs]; rfl, ?_, ?_⟩
    · cases hy : strictYMD s with
      | none =>
          simp only [hy]
          rw [sceneRest_get_ne _ _ _ (by decide) (by decide) (by decide) (by decide)
            (by decide)]
          exact dictGet?_dictSet_self _ _ _
      | some ymd =>
          obtain ⟨y, m₀, d₀⟩ := ymd
          simp only [hy]
          rw [sceneRest_get_ne _ _ _ (by decide) (by decide) (by decide) (by decide)
            (by decide), dictGet?_dictSet_ne _ _ _ _ (by decide)]
          exact dictGet?_dictSet_self _ _ _
    · cases hy : strictYMD s with
      | none =>
          simp only [hy, Option.map_none']
          rw [sceneRest_get_ne _ _ _ (by decide) (by decide) (by decide) (by decide)
            (by decide), dictGet?_dictSet_ne _ _ _ _ (by decide)]
          exact sceneBase_get_year
      | some ymd =>
          obtain ⟨y, m₀, d₀⟩ := ymd
          simp only [hy, Option.map_some']
          rw [sceneRest_get_ne _ _ _ (by decide) (by decide) (by decide) (by decide)
            (by decide)]
          exact dictGet?_dictSet_self _ _ _
  · refine ⟨_, by unfold convert_gallery; rw [hd, dateStep_str s hs]; rfl, ?_, ?_⟩
    · cases hy : strictYMD s with
      | none =>
          simp only [hy]
          rw [galleryRest_get_ne _ _ _ (by decide) (by decide) (by decide) (by decide)
            (by decide)]
          exact dictGet?_dictSet_self _ _ _
      | some ymd =>
          obtain ⟨y, m₀, d₀⟩ := ymd
          simp only [hy]
          rw [galleryRest_get_ne _ _ _ (by decide) (by decide) (by decide) (by decide)
            (by decide), dictGet?_dictSet_ne _ _ _ _ (by decide)]
          exact dictGet?_dictSet_self _ _ _
    · cases hy : strictYMD s with
      | none =>
          simp only [hy, Option.map_none']
          rw [galleryRest_get_ne _ _ _ (by decide) (by decide) (by decide) (by decide)
            (by decide), dictGet?_dictSet_ne _ _ _ _ (by decide)]
          exact galleryBase_get_year
      | some ymd =>
          obtain ⟨y, m₀, d₀⟩ := ymd
          simp only [hy, Option.map_some']
          rw [galleryRest_get_ne _ _ _ (by decide) (by decide) (by decide) (by decide)
            (by decide)]
          exact dictGet?_dictSet_self _ _ _

/-- Witness for C1: the claim's own example — date `"25/12/2023"`
normalizes to premiered `"2023-12-25"` (via the `%d/%m/%Y` layout) while
the strict `%Y-%m-%d` parse of the original string fails, so `year` is
absent. -/
theorem claim1_witness :
    convert_date "25/12/2023" = "2023-12-25" ∧
    strictYMD "25/12/2023" = Option.none ∧
    (∃ m, convert_scene [("date", PyVal.str "25/12/2023")] = some m ∧
      dictGet? m "premiered" = some (.str (convert_date "25/12/2023")) ∧
      dictGet? m "year" = Option.none) := by
  refine ⟨by decide, by decide, ?_⟩
  obtain ⟨⟨m, hm, hp, hy⟩, -⟩ :=
    claim1_premiered_year_asymmetry [("date", PyVal.str "25/12/2023")] "25/12/2023" rfl
      (by decide)
  refine ⟨m, hm, hp, ?_⟩
  rw [hy, show strictYMD "25/12/2023" = Option.none by decide]
  rfl

/-! ### C8: the DateNormalizer is the identity on its fixed points -/

theorem isDigitC_digitChar (n : Nat) (h : n ≤ 9) : isDigitC (digitChar n) = true := by
  interval_cases n <;> decide

theorem digitVal_digitChar (n : Nat) (h : n ≤ 9) : digitVal (digitChar n) = n := by
  interval_cases n <;> decide

theorem digitChar_ne_T (n : Nat) (h : n ≤ 9) : digitChar n ≠ 'T' := by
  interval_cases n <;> decide

theorem parse4Digits_pad4 (y : Nat) (h : y ≤ 9999) (rest : List Char) :
    parse4Digits (pad4 y ++ rest) = some (y, rest) := by
  have h1 : y / 1000 ≤ 9 := by omega
  have h2 : y / 100 % 10 ≤ 9 := by omega
  have h3 : y / 10 % 10 ≤ 9 := by omega
  have h4 : y % 10 ≤ 9 := by omega
  simp only [pad4, List.cons_append, List.nil_append, parse4Digits]
  rw [if_pos (by rw [isDigitC_digitChar _ h1, isDigitC_digitChar _ h2,
    isDigitC_digitChar _ h3, isDigitC_digitChar _ h4]; rfl)]
  rw [digitVal_digitChar _ h1, digitVal_digitChar _ h2, digitVal_digitChar _ h3,
    digitVal_digitChar _ h4]
  simp only [Option.some.injEq, Prod.mk.injEq, and_true]
  omega

theorem monthCands_pad2 (m : Nat) (h1 : 1 ≤ m) (h2 : m ≤ 12) (tail : List Char) :
    ∃ junk, monthCands (pad2 m ++ tail) = (m, tail) :: junk := by
  interval_cases m <;> exact ⟨_, rfl⟩

theorem dayCands_pad2 (d : Nat) (h1 : 1 ≤ d) (h2 : d ≤ 31) (tail : List Char) :
    ∃ junk, dayCands (pad2 d ++ tail) = (d, tail) :: junk := by
  interval_cases d <;> exact ⟨_, rfl⟩

/-- Parsing the canonical rendering with the `%Y-%m-%d` regex recovers
the components and consumes the whole string. -/
theorem regexYMD_roundtrip (y m d : Nat) (hy2 : y ≤ 9999) (hm1 : 1 ≤ m) (hm2 : m ≤ 12)
    (hd1 : 1 ≤ d) (hd2 : d ≤ 31) :
    regexYMD '-' (pad4 y ++ '-' :: (pad2 m ++ '-' :: pad2 d)) = some ((y, m, d), []) := by
  obtain ⟨junk, hj⟩ := monthCands_pad2 m hm1 hm2 ('-' :: pad2 d)
  obtain ⟨junk2, hj2⟩ := dayCands_pad2 d hd1 hd2 []
  rw [List.append_nil] at hj2
  unfold regexYMD
  rw [parse4Digits_pad4 y hy2]
  simp only [hj, hj2, List.findSome?_cons,
    show expectChar '-' ('-' :: (pad2 m ++ '-' :: pad2 d)) =
      some (pad2 m ++ '-' :: pad2 d) from rfl,
    show expectChar '-' ('-' :: pad2 d) = some (pad2 d) from rfl]

theorem daysInMonth_le (y m : Nat) : daysInMonth y m ≤ 31 := by
  unfold daysInMonth
  repeat' split
  all_goals omega

/-- `strptime('%Y-%m-%d')` inverts `strftime('%Y-%m-%d')` on valid
dates. -/
theorem strptimeDate_ymd_roundtrip (y m d : Nat) (hy2 : y ≤ 9999)
    (hv : validDate y m d = true) :
    strptimeDate .ymd (pad4 y ++ '-' :: (pad2 m ++ '-' :: pad2 d)) = some (y, m, d) := by
  have hb : (((1 ≤ y ∧ 1 ≤ m) ∧ m ≤ 12) ∧ 1 ≤ d) ∧ d ≤ daysInMonth y m := by
    simpa [validDate, Bool.and_eq_true, decide_eq_true_eq] using hv
  obtain ⟨⟨⟨⟨hy1, hm1⟩, hm2⟩, hd1⟩, hdm⟩ := hb
  have hd31 : d ≤ 31 := le_trans hdm (daysInMonth_le y m)
  unfold strptimeDate
  rw [show runFormat DateFmt.ymd = regexYMD '-' from rfl,
    regexYMD_roundtrip y m d hy2 hm1 hm2 hd1 hd31]
  show (if validDate y m d then some (y, m, d) else Option.none) = some (y, m, d)
  rw [if_pos hv]

/-- The canonical `YYYY-MM-DD` rendering contains no `'T'`, so the
`split('T')[0]` of `_convert_date` leaves it unchanged. -/
theorem takeUntilT_canonical (y m d : Nat) (hy : y ≤ 9999) (hm : m ≤ 12) (hd : d ≤ 31) :
    takeUntilT (pad4 y ++ '-' :: (pad2 m ++ '-' :: pad2 d)) =
      pad4 y ++ '-' :: (pad2 m ++ '-' :: pad2 d) := by
  simp only [takeUntilT, pad4, pad2, List.cons_append, List.nil_append,
    List.takeWhile_cons,
    decide_eq_true (digitChar_ne_T _ (show y / 1000 ≤ 9 by omega)),
    decide_eq_true (digitChar_ne_T _ (show y / 100 % 10 ≤ 9 by omega)),
    decide_eq_true (digitChar_ne_T _ (show y / 10 % 10 ≤ 9 by omega)),
    decide_eq_true (digitChar_ne_T _ (show y % 10 ≤ 9 by omega)),
    decide_eq_true (digitChar_ne_T _ (show m / 10 ≤ 9 by omega)),
    decide_eq_true (digitChar_ne_T _ (show m % 10 ≤ 9 by omega)),
    decide_eq_true (digitChar_ne_T _ (show d / 10 ≤ 9 by omega)),
    decide_eq_true (digitChar_ne_T _ (show d % 10 ≤ 9 by omega)),
    show decide (('-' : Char) ≠ 'T') = true from rfl,
    if_true, List.takeWhile_nil]

/-- C8: `_convert_date` is the identity on its fixed points — every
string already in canonical `YYYY-MM-DD` form (a zero-padded rendering of
a valid calendar date) is returned unchanged, and every string matching
none of the accepted layouts is returned unchanged, without error. -/
theorem claim8_normalize_fixed_points :
    (∀ (s : String) (y m d : Nat), y ≤ 9999 → validDate y m d = true →
      s.data = pad4 y ++ '-' :: (pad2 m ++ '-' :: pad2 d) → convert_date s = s) ∧
    (∀ s : String,
      (∀ f ∈ dateFormats, strptimeDate f (takeUntilT s.data) = Option.none) →
      convert_date s = s) := by
  constructor
  · intro s y m d hy2 hv hdata
    have hb : (((1 ≤ y ∧ 1 ≤ m) ∧ m ≤ 12) ∧ 1 ≤ d) ∧ d ≤ daysInMonth y m := by
      simpa [validDate, Bool.and_eq_true, decide_eq_true_eq] using hv
    obtain ⟨⟨⟨⟨hy1, hm1⟩, hm2⟩, hd1⟩, hdm⟩ := hb
    have hd31 : d ≤ 31 := le_trans hdm (daysInMonth_le y m)
    have hne : s ≠ "" := by
      intro h
      subst h
      simp [pad4, List.cons_append] at hdata
    unfold convert_date
    rw [if_neg hne, hdata, takeUntilT_canonical y m d hy2 hm2 hd31]
    show (match (DateFmt.ymd :: [DateFmt.ymd, .ymd, .dmySlash, .mdySlash, .dmyDash,
        .mdyDash]).findSome?
        (fun f => strptimeDate f (pad4 y ++ '-' :: (pad2 m ++ '-' :: pad2 d))) with
      | some (y, m, d) => formatYMD y m d
      | Option.none => s) = s
    rw [List.findSome?_cons, strptimeDate_ymd_roundtrip y m d hy2 hv]
    show formatYMD y m d = s
    cases s with
    | mk data =>
        simp only [String.data] at hdata
        exact congrArg String.mk hdata.symm
  · intro s hall
    unfold convert_date
    split
    · next hse => rw [hse]
    · next hse =>
        rw [List.findSome?_eq_none_iff.2 hall]

/-- Witness for C8: the theorem applied at `"2023-12-25"` (canonical,
returned unchanged) and at `"not-a-date"` (matches no layout, returned
unchanged). -/
theorem claim8_witness :
    convert_date "2023-12-25" = "2023-12-25" ∧
    convert_date "not-a-date" = "not-a-date" := by
  constructor
  · exact claim8_normalize_fixed_points.1 "2023-12-25" 2023 12 25 (by norm_num)
      (by decide) (by decide)
  · exact claim8_normalize_fixed_points.2 "not-a-date" (by decide)

/-! ### C4: extraction results are call-scoped, but the artifact buffer
survives the call -/

/-- The per-field decode/sniff/filename computation of
`_save_base64_image`, which depends only on the payload, the output base
name and the role — not on the filesystem or the converter state. -/
def savePure (image_data base_name image_type : String) :
    Option (String × List Nat) :=
  match decode_payload image_data with
  | Option.none => Option.none
  | some bytes =>
      match detect_image_format bytes with
      | Option.none => Option.none
      | some ext =>
          some ((if image_type = "poster" || image_type = "fanart" then
              image_type ++ "." ++ ext
            else base_name ++ "-" ++ image_type ++ "." ++ ext), bytes)

theorem save_base64_image_eq (s outDir base ty : String) (fs : FS) (st : List Artifact) :
    save_base64_image s outDir base ty fs st =
      match savePure s base ty with
      | Option.none => (Option.none, fs, st)
      | some (f, bytes) =>
          (some f, fsSet fs (outDir, f) bytes, st ++ [⟨ty, f, bytes.length⟩]) := by
  unfold save_base64_image savePure
  cases hd : decode_payload s with
  | none => rfl
  | some bytes =>
      cases hdet : detect_image_format bytes with
      | none => simp [hdet]
      | some ext => simp [hdet]

/-- The names and artifacts produced by the field loop, as a pure
function of the raw record and the output base name. -/
def extractPure (sd : Dict) (base_name : String) :
    List (String × String) → List String × List Artifact
  | [] => ([], [])
  | (field, ty) :: rest =>
      match dictGet? sd field with
      | some (.str s) =>
          if s = "" then extractPure sd base_name rest
          else
            match savePure s base_name ty with
            | some (f, bytes) =>
                ((extractPure sd base_name rest).1.cons f,
                  (extractPure sd base_name rest).2.cons ⟨ty, f, bytes.length⟩)
            | Option.none => extractPure sd base_name rest
      | _ => extractPure sd base_name rest

/-- The field loop's returned names and final artifact buffer are the
incoming accumulators extended by the pure per-call values: they carry
nothing from the filesystem and nothing from the converter state. -/
theorem extractGo_spec (sd : Dict) (d b : String) :
    ∀ (fields : List (String × String)) (fs : FS) (st : List Artifact)
      (saved : List String),
      (extractGo sd d b fields fs st saved).1 = saved ++ (extractPure sd b fields).1 ∧
      (extractGo sd d b fields fs st saved).2.2 = st ++ (extractPure sd b fields).2 := by
  intro fields
  induction fields with
  | nil => intro fs st saved; simp [extractGo, extractPure]
  | cons p rest ih =>
      intro fs st saved
      obtain ⟨fd, ty⟩ := p
      unfold extractGo extractPure
      cases hv : dictGet? sd fd with
      | none => exact ih fs st saved
      | some v =>
          cases v with
          | str s =>
              by_cases hs : s = ""
              · simp only [if_pos hs]
                exact ih fs st saved
              · simp only [if_neg hs, save_base64_image_eq]
                cases hsp : savePure s b ty with
                | none => exact ih fs st saved
                | some p₂ =>
                    obtain ⟨f, bytes⟩ := p₂
                    obtain ⟨ih1, ih2⟩ := ih (fsSet fs (d, f) bytes)
                      (st ++ [⟨ty, f, bytes.length⟩]) (saved ++ [f])
                    constructor
                    · rw [ih1]; simp
                    · rw [ih2]; simp
          | none => exact ih fs st saved
          | bool b₂ => exact ih fs st saved
          | num q => exact ih fs st saved
          | list l => exact ih fs st saved
          | dict d₂ => exact ih fs st saved

/-- C4 (amended): the list returned by `extract_images` and the
converter's `extracted_images` after the call depend only on the call's
raw record and output path — nothing is carried over from a prior call
(the buffer is cleared on entry) — but the artifact records of the
current call DO remain on the converter object after the call returns
(they are only discarded at the start of the next call). -/
theorem claim4_call_scoped_results (sd : Dict) (d b : String) (fs fs' : FS)
    (st st' : List Artifact) :
    (extract_images sd d b fs st).1 = (extract_images sd d b fs' st').1 ∧
    (extract_images sd d b fs st).2.2 = (extract_images sd d b fs' st').2.2 ∧
    (extract_images sd d b fs st).2.2 = (extractPure sd b image_fields).2 := by
  have h₁ := extractGo_spec sd d b image_fields fs [] []
  have h₂ := extractGo_spec sd d b image_fields fs' [] []
  unfold extract_images
  refine ⟨?_, ?_, ?_⟩
  · rw [h₁.1, h₂.1]
  · rw [h₁.2, h₂.2]
  · rw [h₁.2]; rfl

/-- C4 counterexample: after a call that saved one cover image, the
converter's `extracted_images` buffer is not empty — the artifact record
remains as hidden state on the object, contradicting the claim that no
records remain after the call returns. -/
theorem claim4_counterexample :
    (extract_images [("cover", .str "/9j/")] "dir" "base" [] []).2.2 =
      [⟨"poster", "poster.jpg", 3⟩] ∧
    (extract_images [("cover", .str "/9j/")] "dir" "base" [] []).2.2 ≠ [] := by
  refine ⟨by decide, by decide⟩

/-! ### C10: cover and poster collide on the poster filename -/

theorem str_data_append (a b : String) : (a ++ b).data = a.data ++ b.data := rfl

/-- Every format the sniffer returns is one of its five extensions. -/
theorem detect_ext_mem (b : List Nat) (e : String) (h : detect_image_format b = some e) :
    e ∈ (["jpg", "png", "gif", "webp", "bmp"] : List String) := by
  unfold detect_image_format at h
  repeat' split at h
  all_goals simp_all

/-- A thumb-role filename (`<base>-thumb.<e>`) never equals a poster
filename `poster.<e'>` for a sniffed extension `e'`: the right-hand side
contains no `'-'`. -/
theorem thumbName_ne_posterName (base e e' : String)
    (he' : e' ∈ (["jpg", "png", "gif", "webp", "bmp"] : List String)) :
    base ++ "-" ++ "thumb" ++ "." ++ e ≠ "poster" ++ "." ++ e' := by
  intro heq
  have hmem : '-' ∈ ("poster" ++ "." ++ e').data := by
    rw [← heq]
    simp [str_data_append, show "-".data = ['-'] from rfl]
  fin_cases he' <;> exact absurd hmem (by decide)

/-- A fanart filename never equals a poster filename: the first
characters differ. -/
theorem fanartName_ne_posterName (e e' : String) :
    "fanart" ++ "." ++ e ≠ "poster" ++ "." ++ e' := by
  intro heq
  have hd := congrArg String.data heq
  simp only [str_data_append,
    show "fanart".data = ['f', 'a', 'n', 'a', 'r', 't'] from rfl,
    show "poster".data = ['p', 'o', 's', 't', 'e', 'r'] from rfl,
    show ".".data = ['.'] from rfl, List.cons_append, List.nil_append,
    List.append_assoc, List.cons.injEq] at hd
  exact absurd hd.1 (by decide)

/-- The filename and bytes a successful per-field save produces. -/
theorem savePure_shape (s b ty f : String) (bytes : List Nat)
    (h : savePure s b ty = some (f, bytes)) :
    ∃ e, detect_image_format bytes = some e ∧
      f = (if ty = "poster" || ty = "fanart" then ty ++ "." ++ e
        else b ++ "-" ++ ty ++ "." ++ e) := by
  unfold savePure at h
  cases hd : decode_payload s with
  | none => rw [hd] at h; cases h
  | some bytes₀ =>
      rw [hd] at h
      cases hdet : detect_image_format bytes₀ with
      | none => simp [hdet] at h
      | some ext =>
          simp only [hdet, Option.some.injEq, Prod.mk.injEq] at h
          obtain ⟨hf, hb⟩ := h
          subst hb
          exact ⟨ext, hdet, hf.symm⟩

/-- Processing a list of fields none of which can produce the target
filename leaves the count of the target in the returned names, and the
file at the target path, unchanged. -/
theorem extractGo_count_preserve (sd : Dict) (d b target : String)
    (fields : List (String × String))
    (hf : ∀ p ∈ fields, ∀ s f bytes, savePure s b p.2 = some (f, bytes) → f ≠ target) :
    ∀ (fs : FS) (st : List Artifact) (saved : List String),
      ((extractGo sd d b fields fs st saved).1.count target = saved.count target) ∧
      fsGet? (extractGo sd d b fields fs st saved).2.1 (d, target) =
        fsGet? fs (d, target) := by
  induction fields with
  | nil => intro fs st saved; exact ⟨rfl, rfl⟩
  | cons p rest ih =>
      intro fs st saved
      obtain ⟨fd, ty⟩ := p
      have hrest := fun q hq => hf q (List.mem_cons_of_mem _ hq)
      have hp := hf (fd, ty) (List.mem_cons_self _ _)
      unfold extractGo
      cases hv : dictGet? sd fd with
      | none => exact ih hrest fs st saved
      | some v =>
          cases v with
          | str s =>
              by_cases hs : s = ""
              · simp only [if_pos hs]
                exact ih hrest fs st saved
              · simp only [if_neg hs, save_base64_image_eq]
                cases hsp : savePure s b ty with
                | none => exact ih hrest fs st saved
                | some p₂ =>
                    obtain ⟨f, bytes⟩ := p₂
                    have hne : f ≠ target := hp s f bytes hsp
                    obtain ⟨ih1, ih2⟩ := ih hrest (fsSet fs (d, f) bytes)
                      (st ++ [⟨ty, f, bytes.length⟩]) (saved ++ [f])
                    refine ⟨?_, ?_⟩
                    · rw [ih1, List.count_append]
                      simp [List.count_cons, hne]
                    · rw [ih2, fsGet?_fsSet_ne]
                      exact fun hk => hne (congrArg Prod.snd hk)
          | none => exact ih hrest fs st saved
          | bool b₂ => exact ih hrest fs st saved
          | num q => exact ih hrest fs st saved
          | list l => exact ih hrest fs st saved
          | dict d₂ => exact ih hrest fs st saved

/-- Splitting the field loop over an append. -/
theorem extractGo_append (sd : Dict) (d b : String) :
    ∀ (l₁ l₂ : List (String × String)) (fs : FS) (st : List Artifact)
      (saved : List String),
      extractGo sd d b (l₁ ++ l₂) fs st saved =
        extractGo sd d b l₂ (extractGo sd d b l₁ fs st saved).2.1
          (extractGo sd d b l₁ fs st saved).2.2 (extractGo sd d b l₁ fs st saved).1 := by
  intro l₁
  induction l₁ with
  | nil => intro l₂ fs st saved; rfl
  | cons p rest ih =>
      intro l₂ fs st saved
      obtain ⟨fd, ty⟩ := p
      simp only [List.cons_append]
      conv_lhs => unfold extractGo
      conv_rhs => rw [show extractGo sd d b ((fd, ty) :: rest) fs st saved =
        (match dictGet? sd fd with
          | some (.str s) =>
              if s = "" then extractGo sd d b rest fs st saved
              else
                match save_base64_image s d b ty fs st with
                | (some f, fs', st') => extractGo sd d b rest fs' st' (saved ++ [f])
                | (Option.none, fs', st') => extractGo sd d b rest fs' st' saved
          | _ => extractGo sd d b rest fs st saved) from rfl]
      cases hv : dictGet? sd fd with
      | none => exact ih l₂ fs st saved
      | some v =>
          cases v with
          | str s =>
              by_cases hs : s = ""
              · simp only [if_pos hs]
                exact ih l₂ fs st saved
              · simp only [if_neg hs]
                cases hsv : save_base64_image s d b ty fs st with
                | mk o rest₂ =>
                    obtain ⟨fs', st'⟩ := rest₂
                    cases o with
                    | none => exact ih l₂ fs' st' saved
                    | some f => exact ih l₂ fs' st' (saved ++ [f])
          | none => exact ih l₂ fs st saved
          | bool b₂ => exact ih l₂ fs st saved
          | num q => exact ih l₂ fs st saved
          | list l => exact ih l₂ fs st saved
          | dict d₂ => exact ih l₂ fs st saved

/-- C10: when both `cover` and `poster` hold non-empty decodable
payloads whose sniffed formats coincide, both fields are assigned the
poster role and the same filename `poster.<ext>`: the returned list
contains that filename exactly twice, and the file finally on disk holds
the `poster` key's bytes — scanned later in the fixed table order, they
overwrite the `cover` key's write. -/
theorem claim10_cover_poster_same_filename
    (sd : Dict) (d b : String) (fs : FS) (st : List Artifact)
    (c p : String) (bc bp : List Nat) (ext : String)
    (hc : dictGet? sd "cover" = some (.str c)) (hcne : c ≠ "")
    (hcd : decode_payload c = some bc)
    (hp : dictGet? sd "poster" = some (.str p)) (hpne : p ≠ "")
    (hpd : decode_payload p = some bp)
    (hce : detect_image_format bc = some ext)
    (hpe : detect_image_format bp = some ext) :
    ((extract_images sd d b fs st).1.count ("poster" ++ "." ++ ext) = 2) ∧
    fsGet? (extract_images sd d b fs st).2.1 (d, "poster" ++ "." ++ ext) = some bp := by
  have hext5 := detect_ext_mem bc ext hce
  have hsc : savePure c b "poster" = some ("poster" ++ "." ++ ext, bc) := by
    simp [savePure, hcd, hce]
  have hsp2 : savePure p b "poster" = some ("poster" ++ "." ++ ext, bp) := by
    simp [savePure, hpd, hpe]
  have hthumb : ∀ s f bytes, savePure s b "thumb" = some (f, bytes) →
      f ≠ "poster" ++ "." ++ ext := by
    intro s f bytes hsp
    obtain ⟨e, -, hf⟩ := savePure_shape s b "thumb" f bytes hsp
    rw [hf, if_neg (by decide)]
    exact thumbName_ne_posterName b e ext hext5
  have hfan : ∀ s f bytes, savePure s b "fanart" = some (f, bytes) →
      f ≠ "poster" ++ "." ++ ext := by
    intro s f bytes hsp
    obtain ⟨e, -, hf⟩ := savePure_shape s b "fanart" f bytes hsp
    rw [hf, if_pos (by decide)]
    exact fanartName_ne_posterName e ext
  have hft : ∀ q ∈ ([("thumbnail", "thumb"), ("fanart", "fanart")] :
      List (String × String)), ∀ s f bytes, savePure s b q.2 = some (f, bytes) →
      f ≠ "poster" ++ "." ++ ext := by
    intro q hq
    fin_cases hq
    · exact hthumb
    · exact hfan
  have hfi : ∀ q ∈ ([("image", "thumb")] : List (String × String)),
      ∀ s f bytes, savePure s b q.2 = some (f, bytes) →
      f ≠ "poster" ++ "." ++ ext := by
    intro q hq
    fin_cases hq
    exact hthumb
  have h1 : extractGo sd d b image_fields fs [] [] =
      extractGo sd d b [("image", "thumb"), ("poster", "poster"), ("thumbnail", "thumb"),
        ("fanart", "fanart")] (fsSet fs (d, "poster" ++ "." ++ ext) bc)
        [⟨"poster", "poster" ++ "." ++ ext, bc.length⟩] ["poster" ++ "." ++ ext] := by
    show extractGo sd d b (("cover", "poster") :: _) fs [] [] = _
    conv_lhs => unfold extractGo
    simp only [hc]
    rw [if_neg hcne, save_base64_image_eq, hsc]
    rfl
  have h3 : ∀ (fs₁ : FS) (st₁ : List Artifact) (sv₁ : List String),
      extractGo sd d b (("poster", "poster") ::
        [("thumbnail", "thumb"), ("fanart", "fanart")]) fs₁ st₁ sv₁ =
        extractGo sd d b [("thumbnail", "thumb"), ("fanart", "fanart")]
          (fsSet fs₁ (d, "poster" ++ "." ++ ext) bp)
          (st₁ ++ [⟨"poster", "poster" ++ "." ++ ext, bp.length⟩])
          (sv₁ ++ ["poster" ++ "." ++ ext]) := by
    intro fs₁ st₁ sv₁
    conv_lhs => unfold extractGo
    simp only [hp]
    rw [if_neg hpne, save_base64_image_eq, hsp2]
  unfold extract_images
  rw [h1, show ([("image", "thumb"), ("poster", "poster"), ("thumbnail", "thumb"),
      ("fanart", "fanart")] : List (String × String)) =
      [("image", "thumb")] ++ (("poster", "poster") ::
        [("thumbnail", "thumb"), ("fanart", "fanart")]) from rfl,
    extractGo_append, h3]
  refine ⟨?_, ?_⟩
  · rw [(extractGo_count_preserve sd d b _ _ hft _ _ _).1, List.count_append,
      (extractGo_count_preserve sd d b _ _ hfi _ _ _).1]
    simp
  · rw [(extractGo_count_preserve sd d b _ _ hft _ _ _).2, fsGet?_fsSet_self]

/-- Witness for C10: two concrete JPEG payloads under `cover` and
`poster` — the returned list holds `poster.jpg` twice and the file on
disk holds the `poster` key's (distinct) bytes. -/
theorem claim10_witness :
    decode_payload "/9j/" = some [255, 216, 255] ∧
    decode_payload "/9j/QQ==" = some [255, 216, 255, 65] ∧
    detect_image_format [255, 216, 255] = some "jpg" ∧
    detect_image_format [255, 216, 255, 65] = some "jpg" ∧
    ((extract_images [("cover", .str "/9j/"), ("poster", .str "/9j/QQ==")]
      "out" "s" [] []).1.count ("poster" ++ "." ++ "jpg") = 2) ∧
    fsGet? (extract_images [("cover", .str "/9j/"), ("poster", .str "/9j/QQ==")]
      "out" "s" [] []).2.1 ("out", "poster" ++ "." ++ "jpg") =
      some [255, 216, 255, 65] := by
  refine ⟨by decide, by decide, rfl, rfl, ?_, ?_⟩
  · exact (claim10_cover_poster_same_filename
      [("cover", .str "/9j/"), ("poster", .str "/9j/QQ==")] "out" "s" [] []
      "/9j/" "/9j/QQ==" [255, 216, 255] [255, 216, 255, 65] "jpg"
      rfl (by decide) (by decide) rfl (by decide) (by decide) rfl rfl).1
  · exact (claim10_cover_poster_same_filename
      [("cover", .str "/9j/"), ("poster", .str "/9j/QQ==")] "out" "s" [] []
      "/9j/" "/9j/QQ==" [255, 216, 255] [255, 216, 255, 65] "jpg"
      rfl (by decide) (by decide) rfl (by decide) (by decide) rfl rfl).2

/-! ### C2: elements are always present with defaulted text, but the
serializer emits empty ones self-closing -/

theorem str_append_nil (s : String) : s ++ "" = s := by
  cases s with
  | mk l =>
      show String.mk (l ++ []) = String.mk l
      rw [List.append_nil]

/-- C2 (amended): the renderer's text helper always sets the element's
text — the empty string whenever the given text is falsy — and no
element is omitted from the tree (a movie tree always begins with its
`title`, `originaltitle`, `plot` and `userrating` elements and an actor
tree with its `name` element, whatever the record).  However, the
serializer (`ET.tostring` with its default `short_empty_elements=True`)
emits every element whose text is empty and which has no children in
SELF-CLOSING form `<tag />`, not as an open/close tag pair. -/
theorem claim2_empty_text_selfclosing :
    (∀ (tag : String) (v : PyVal),
      (add_text_element tag v).text = some (if pyTruthy v then v else .str "")) ∧
    (∀ e : Element, e.text = some (.str "") → e.children = [] → e.attrib = [] →
      serializeElem e = some ("<" ++ e.tag ++ " />")) ∧
    (∀ (nfo : Dict) (t : Element), generateMovieTree nfo = some t →
      (t.children.map Element.tag).take 4 =
        ["title", "originaltitle", "plot", "userrating"]) ∧
    (∀ nfo : Dict, ((generateActorTree nfo).children.map Element.tag).take 1 =
      ["name"]) := by
  refine ⟨fun tag v => rfl, ?_, ?_, ?_⟩
  · intro e h1 h2 h3
    obtain ⟨tag, attrs, text, children⟩ := e
    simp only [Element.text] at h1
    simp only [Element.children] at h2
    simp only [Element.attrib] at h3
    subst h1
    subst h2
    subst h3
    rw [show serializeElem (.mk tag [] (some (.str "")) []) =
      some ((("<" ++ tag) ++ "") ++ " />") from rfl, str_append_nil]
    rfl
  · intro nfo t ht
    unfold generateMovieTree at ht
    cases hg : iterPy (dictGetD nfo "genres" (.list [])) with
    | none => rw [hg] at ht; cases ht
    | some gs =>
        cases ha : iterPy (dictGetD nfo "actors" (.list [])) with
        | none => rw [hg, ha] at ht; cases ht
        | some as_ =>
            rw [hg, ha] at ht
            have heq := Option.some.inj ht
            subst heq
            simp [Element.children, Element.tag, add_text_element, List.cons_append]
  · intro nfo
    simp [generateActorTree, Element.children, Element.tag, add_text_element,
      List.cons_append]

/-- C2 counterexample: a scene with no title (the empty record) renders
its `<title>` element self-closing — the output contains `<title />` and
no `<title></title>` open/close pair, contradicting the claim that
empty-text elements are never serialized self-closing. -/
theorem claim2_counterexample :
    ∃ out, generate "utf-8" [] "scene" = some out ∧
      out = ("<?xml version=\"1.0\" encoding=\"utf-8\" standalone=\"yes\" ?>" ++
        "<movie><title /><originaltitle /><plot />" ++
        "<userrating>0</userrating></movie>") ∧
      containsSeq "<title />".data out.data = true ∧
      containsSeq "<title></title>".data out.data = false := by
  refine ⟨_, rfl, by decide, by decide, by decide⟩

/-- Witness for C2: the theorem applied at a concrete empty-text element
and at the empty record. -/
theorem claim2_witness :
    serializeElem (.mk "title" [] (some (.str "")) []) = some ("<" ++ "title" ++ " />") ∧
    (∃ t, generateMovieTree [] = some t ∧
      (t.children.map Element.tag).take 4 =
        ["title", "originaltitle", "plot", "userrating"]) := by
  constructor
  · exact claim2_empty_text_selfclosing.2.1 (.mk "title" [] (some (.str "")) [])
      rfl rfl rfl
  · exact ⟨_, rfl, claim2_empty_text_selfclosing.2.2.1 [] _ rfl⟩

end NfoGen
